import Mathlib

/-!
Shallow embedding of the S3 bucket connector (`bucket_connector/connector.go`).

We embed the operations the specification's claims are about: the single-key
delete `DeleteFile`, the paginated bulk delete `DeleteFileWithPrefix`, the
upload path `SaveFile` (decode-then-measure variant), and the base64
content-length arithmetic of the earlier `SaveFile` variant.

The S3 backend is modelled explicitly: a bucket is the list of object keys it
currently holds; a paginated listing is the sequence of `NextPage` responses
the SDK paginator produces (either a page's `Contents` keys in listing order,
or a listing error); the outcome of each `DeleteObject` call is an oracle from
keys to an optional error message (`none` = success, which removes the key).
Go error values are represented by their message strings.
-/

namespace BucketConnector

/-- Go `strings.Contains(s, sub)`: `sub` occurs as a contiguous substring
of `s`. -/
def goContains (s sub : String) : Bool :=
  decide (sub.toList <:+: s.toList)

/-- S3 `ListObjectsV2` filter semantics for the `Prefix` field (external
collaborator, spec section 6): a key is a candidate exactly when it lexically
begins with the filter string `p`; a plain literal match, no wildcard or regex
semantics. -/
def matchesFilter (p k : String) : Bool :=
  p.toList.isPrefixOf k.toList

/-- Result of one backend `DeleteObject` call: `none` is success, `some msg`
an error with text `msg`. -/
abbrev DeleteObjectResult := Option String

/-- `DeleteFile` (connector.go, lines 617-644): issue one `DeleteObject` for
the key; on an error whose text contains neither `"NotFound"` nor
`"NoSuchKey"`, propagate it; an error carrying either signal is swallowed
(the object is already gone, report success); backend success is success.
The argument is the backend's answer to the single `DeleteObject` request,
and the value returned is the error `DeleteFile` reports, if any. -/
def DeleteFile (res : DeleteObjectResult) : Option String :=
  match res with
  | none => none
  | some errMsg =>
    if !goContains errMsg "NotFound" && !goContains errMsg "NoSuchKey" then
      some errMsg
    else
      none

/-- One `NextPage` answer of the `ListObjectsV2` paginator: the keys of the
page's `Contents` in listing order, or a listing error. -/
abbrev PageResult := Except String (List String)

/-- Observable behaviour of one `DeleteFileWithPrefix` run: the final bucket
contents, the `DeleteObject` requests issued (in order, a failing final one
included), and the error returned to the caller, if any. -/
structure WorkflowRun where
  bucket : List String
  deleteCalls : List String
  err : Option String
  deriving DecidableEq

/-- Inner loop of `DeleteFileWithPrefix` over one page's `Contents`
(connector.go, lines 594-611): delete the keys one at a time, in listing
order; a successful `DeleteObject` removes the key from the bucket, a failing
one aborts immediately with its error.  `delErr` is the backend's outcome for
each `DeleteObject` request. -/
def deletePageContents (bucket : List String) (delErr : String → Option String) :
    List String → WorkflowRun
  | [] => ⟨bucket, [], none⟩
  | k :: ks =>
    match delErr k with
    | some e => ⟨bucket, [k], some e⟩
    | none =>
      let r := deletePageContents (bucket.filter fun x => decide (x ≠ k)) delErr ks
      ⟨r.bucket, k :: r.deleteCalls, r.err⟩

/-- `DeleteFileWithPrefix` (connector.go, lines 575-615): while the paginator
has more pages, fetch the next page — aborting with the listing error if the
fetch fails — and delete every key of its `Contents` sequentially, aborting
with the first delete error; when the pages are exhausted, return success.
`pages` is the sequence of paginator responses for the prefix being
deleted. -/
def DeleteFileWithPrefix (bucket : List String) (delErr : String → Option String) :
    List PageResult → WorkflowRun
  | [] => ⟨bucket, [], none⟩
  | Except.error e :: _ => ⟨bucket, [], some e⟩
  | Except.ok contents :: rest =>
    match deletePageContents bucket delErr contents with
    | ⟨b1, calls1, some e⟩ => ⟨b1, calls1, some e⟩
    | ⟨b1, calls1, none⟩ =>
      let r2 := DeleteFileWithPrefix b1 delErr rest
      ⟨r2.bucket, calls1 ++ r2.deleteCalls, r2.err⟩

/-- Value of one character in the standard base64 alphabet
(`A`-`Z`, `a`-`z`, `0`-`9`, `+`, `/`). -/
def b64Val (c : Char) : Option Nat :=
  if 'A' ≤ c ∧ c ≤ 'Z' then some (c.toNat - 'A'.toNat)
  else if 'a' ≤ c ∧ c ≤ 'z' then some (c.toNat - 'a'.toNat + 26)
  else if '0' ≤ c ∧ c ≤ '9' then some (c.toNat - '0'.toNat + 52)
  else if c = '+' then some 62
  else if c = '/' then some 63
  else none

/-- Quanta assembly of Go's standard base64 decoder, applied after the
new-line skipping of `DecodeString` below: decode 4-character quanta into 3
bytes each; `=` padding is accepted only at the very end of the input, where
`xx==` yields one byte and `xxx=` two; inputs whose length is not a multiple
of 4, that contain a character outside the alphabet, or that carry interior
padding are rejected (`none`). Bytes are returned as `Nat` values below 256. -/
def base64Decode : List Char → Option (List Nat)
  | [] => some []
  | a :: b :: c :: d :: rest =>
    match b64Val a, b64Val b with
    | some va, some vb =>
      if c = '=' then
        if d = '=' && rest.isEmpty then some [va * 4 + vb / 16] else none
      else
        match b64Val c with
        | some vc =>
          if d = '=' then
            if rest.isEmpty then some [va * 4 + vb / 16, vb % 16 * 16 + vc / 4] else none
          else
            match b64Val d with
            | some vd =>
              (base64Decode rest).map
                (fun bs => (va * 4 + vb / 16) :: (vb % 16 * 16 + vc / 4) :: (vc % 4 * 64 + vd) :: bs)
            | none => none
        | none => none
    | _, _ => none
  | _ => none

/-- Go `base64.StdEncoding.DecodeString`: new line characters (`\r` and
`\n`) are ignored — skipped wherever they occur — and the remaining
characters are decoded in 4-character quanta with end-only padding
(`base64Decode` above). -/
def DecodeString (s : String) : Option (List Nat) :=
  base64Decode (s.toList.filter fun c => !(c == '\r' || c == '\n'))

/-- The content-length approximation of the earlier `SaveFile` variant
(connector.go, lines 164-171): `contentLength := (rawLength / 4) * 3`, then
`contentLength += rawLength % 4 - 1` when `rawLength % 4 != 0`, where
`rawLength := int64(len(encodedData))`. Go's `len` counts UTF-8 bytes; on
the ASCII base64 alphabet this equals the character count used here. -/
def approxContentLength (encodedData : String) : Int :=
  let rawLength : Int := (encodedData.length : Int)
  let contentLength := rawLength / 4 * 3
  if rawLength % 4 ≠ 0 then contentLength + (rawLength % 4 - 1) else contentLength

/-- An upload request (`UploaderReq`): file name, category, and the base64
payload `RawData`. -/
structure UploaderReq where
  FileName : String
  Category : String
  RawData : String

/-- Observable behaviour of one `SaveFile` run: the `PutObject` requests
issued (object key and decoded body bytes) and the value returned to the
caller (object URL, or the error). -/
structure SaveFileRun where
  putCalls : List (String × List Nat)
  ret : Except String String

/-- `SaveFile` (decode-then-measure variant, connector.go, lines 535-569):
decode `req.RawData` as standard base64, returning the decode error — without
any backend call — when it is malformed; otherwise `PutObject` the decoded
bytes under `Category/FileName` (a freshly generated `uuidName` when
`FileName` is empty) with their measured length, and return the object URL on
success. `putErr` is the backend's outcome for the `PutObject` request; the
`url.PathEscape` applied to the returned URL (external stdlib) is omitted, as
no property below concerns the URL text. -/
def SaveFile (bucketName : String) (req : UploaderReq) (uuidName : String)
    (putErr : Option String) : SaveFileRun :=
  match DecodeString req.RawData with
  | none => ⟨[], Except.error "illegal base64 data"⟩
  | some decodedData =>
    let fileName := if req.FileName ≠ "" then req.FileName else uuidName
    let filePath := req.Category ++ "/" ++ fileName
    match putErr with
    | some e => ⟨[(filePath, decodedData)], Except.error e⟩
    | none =>
      ⟨[(filePath, decodedData)], Except.ok ("https://" ++ bucketName ++ "/" ++ filePath)⟩

/-- Effect of a sequence of `PutObject` requests on a bucket: each request
makes its key present (keys are unique within a bucket's namespace). -/
def applyPutCalls (bucket : List String) (calls : List (String × List Nat)) : List String :=
  calls.foldl (fun b c => if b.contains c.1 then b else b ++ [c.1]) bucket

/-! Helper lemmas about the delete workflow. -/

lemma filter_not_mem_nil (l : List String) :
    (l.filter fun x => decide (x ∉ ([] : List String))) = l := by
  simp

lemma filter_not_mem_append (bucket ks1 ks2 : List String) :
    ((bucket.filter fun x => decide (x ∉ ks1)).filter fun x => decide (x ∉ ks2)) =
      bucket.filter fun x => decide (x ∉ ks1 ++ ks2) := by
  rw [List.filter_filter]
  apply List.filter_congr
  intro x _
  by_cases h1 : x ∈ ks1 <;> by_cases h2 : x ∈ ks2 <;> simp [h1, h2]

lemma filter_ne_eq_filter_not_mem (bucket : List String) (k : String) :
    (bucket.filter fun x => decide (x ≠ k)) = bucket.filter fun x => decide (x ∉ [k]) := by
  apply List.filter_congr
  intro x _
  simp

/-- When every `DeleteObject` in a page succeeds, the inner loop deletes
exactly the page's keys, issues one call per key in order, and reports no
error. -/
lemma deletePageContents_all_ok (delErr : String → Option String) :
    ∀ (ks : List String), (∀ x ∈ ks, delErr x = none) → ∀ (bucket : List String),
      deletePageContents bucket delErr ks =
        ⟨bucket.filter fun x => decide (x ∉ ks), ks, none⟩
  | [], _, bucket => by
    simp [deletePageContents]
  | k :: ks, h, bucket => by
    have hk : delErr k = none := h k (by simp)
    have hks : ∀ x ∈ ks, delErr x = none := fun x hx => h x (by simp [hx])
    simp only [deletePageContents, hk]
    rw [deletePageContents_all_ok delErr ks hks]
    rw [filter_ne_eq_filter_not_mem, filter_not_mem_append]
    rfl

/-- When the first failing `DeleteObject` of a page is at key `k`, the inner
loop deletes the keys before `k`, issues calls for them and for `k` only, and
aborts with the error of `k`'s call. -/
lemma deletePageContents_first_error (delErr : String → Option String) (k e : String)
    (ks2 : List String) (hk : delErr k = some e) :
    ∀ (ks1 : List String), (∀ x ∈ ks1, delErr x = none) → ∀ (bucket : List String),
      deletePageContents bucket delErr (ks1 ++ k :: ks2) =
        ⟨bucket.filter fun x => decide (x ∉ ks1), ks1 ++ [k], some e⟩
  | [], _, bucket => by
    simp [deletePageContents, hk]
  | a :: as, h1, bucket => by
    have ha : delErr a = none := h1 a (by simp)
    have has : ∀ x ∈ as, delErr x = none := fun x hx => h1 x (by simp [hx])
    simp only [List.cons_append, deletePageContents, ha, List.append_eq]
    rw [deletePageContents_first_error delErr k e ks2 hk as has]
    rw [filter_ne_eq_filter_not_mem, filter_not_mem_append]
    rfl

/-- Running the workflow through a run of successful pages whose deletes all
succeed removes those pages' keys, records their delete calls in listing
order, and continues with the remaining paginator responses. -/
lemma DeleteFileWithPrefix_ok_pages (delErr : String → Option String) :
    ∀ (done : List (List String)), (∀ ks ∈ done, ∀ x ∈ ks, delErr x = none) →
    ∀ (bucket : List String) (tail : List PageResult),
      DeleteFileWithPrefix bucket delErr (done.map Except.ok ++ tail) =
        ⟨(DeleteFileWithPrefix (bucket.filter fun x => decide (x ∉ done.flatten))
            delErr tail).bucket,
         done.flatten ++
           (DeleteFileWithPrefix (bucket.filter fun x => decide (x ∉ done.flatten))
             delErr tail).deleteCalls,
         (DeleteFileWithPrefix (bucket.filter fun x => decide (x ∉ done.flatten))
           delErr tail).err⟩
  | [], _, bucket, tail => by
    rw [List.map_nil, List.nil_append, List.flatten_nil, filter_not_mem_nil,
      List.nil_append]
  | ks :: done, h, bucket, tail => by
    have hks : ∀ x ∈ ks, delErr x = none := h ks (by simp)
    have hdone : ∀ l ∈ done, ∀ x ∈ l, delErr x = none := fun l hl => h l (by simp [hl])
    rw [List.map_cons, List.cons_append]
    show DeleteFileWithPrefix bucket delErr (Except.ok ks :: (done.map Except.ok ++ tail)) = _
    rw [DeleteFileWithPrefix, deletePageContents_all_ok delErr ks hks bucket]
    simp only
    rw [DeleteFileWithPrefix_ok_pages delErr done hdone
      (bucket.filter fun x => decide (x ∉ ks)) tail]
    rw [filter_not_mem_append, List.flatten_cons, List.append_assoc]

/-- C1: if the paginated listing for filter `P` over bucket `B` is honest —
its pages jointly return exactly the keys of `B` matching `P` — and every
issued delete succeeds, then `DeleteFileWithPrefix` returns success, no key
of `B` matching `P` remains in the bucket afterwards, and every key it
deleted was a key of `B` matching `P`: no key outside that set was deleted. -/
theorem DeleteFileWithPrefix_deletes_exactly_matching
    (bucket : List String) (P : String) (delErr : String → Option String)
    (pages : List (List String)) (r : WorkflowRun)
    (hlist : pages.flatten = bucket.filter fun k => matchesFilter P k)
    (hdel : ∀ ks ∈ pages, ∀ x ∈ ks, delErr x = none)
    (hr : r = DeleteFileWithPrefix bucket delErr (pages.map Except.ok)) :
    r.err = none ∧
      (∀ k ∈ bucket, matchesFilter P k = true → k ∉ r.bucket) ∧
      (∀ k ∈ r.deleteCalls, k ∈ bucket ∧ matchesFilter P k = true) := by
  have h := DeleteFileWithPrefix_ok_pages delErr pages hdel bucket []
  rw [List.append_nil, hlist] at h
  simp only [DeleteFileWithPrefix, List.append_nil] at h
  rw [h] at hr
  subst hr
  refine ⟨rfl, ?_, ?_⟩
  · intro k hk hmatch hmem
    simp only [List.mem_filter, decide_eq_true_eq] at hmem
    exact hmem.2 ⟨hk, hmatch⟩
  · intro k hk
    simpa using List.mem_filter.mp hk

/-- C1 witness: the spec's concrete scenario — deleting filter `"logs/"` from
a bucket holding `logs/a`, `logs/b`, `images/c`, listed as one page. -/
theorem DeleteFileWithPrefix_deletes_exactly_matching_witness :
    (DeleteFileWithPrefix ["logs/a", "logs/b", "images/c"] (fun _ => none)
        ([["logs/a", "logs/b"]].map Except.ok)).err = none ∧
      (∀ k ∈ ["logs/a", "logs/b", "images/c"], matchesFilter "logs/" k = true →
        k ∉ (DeleteFileWithPrefix ["logs/a", "logs/b", "images/c"] (fun _ => none)
          ([["logs/a", "logs/b"]].map Except.ok)).bucket) ∧
      (∀ k ∈ (DeleteFileWithPrefix ["logs/a", "logs/b", "images/c"] (fun _ => none)
          ([["logs/a", "logs/b"]].map Except.ok)).deleteCalls,
        k ∈ ["logs/a", "logs/b", "images/c"] ∧ matchesFilter "logs/" k = true) :=
  DeleteFileWithPrefix_deletes_exactly_matching
    ["logs/a", "logs/b", "images/c"] "logs/" (fun _ => none)
    [["logs/a", "logs/b"]] _ (by decide) (by decide) rfl

/-- C3: when the first failing `DeleteObject` of the run is for key `k` —
all keys listed before it were deleted successfully — `DeleteFileWithPrefix`
returns that delete error, and the requests it issued stop at `k`: none are
issued for the keys after `k` in its page nor for any later page. -/
theorem DeleteFileWithPrefix_abort_on_delete_error
    (bucket : List String) (delErr : String → Option String)
    (done : List (List String)) (ks1 ks2 : List String) (k e : String)
    (rest : List PageResult) (pages : List PageResult)
    (hdone : ∀ ks ∈ done, ∀ x ∈ ks, delErr x = none)
    (h1 : ∀ x ∈ ks1, delErr x = none)
    (hk : delErr k = some e)
    (hpages : pages = done.map Except.ok ++ Except.ok (ks1 ++ k :: ks2) :: rest) :
    (DeleteFileWithPrefix bucket delErr pages).err = some e ∧
      (DeleteFileWithPrefix bucket delErr pages).deleteCalls =
        done.flatten ++ ks1 ++ [k] := by
  subst hpages
  rw [DeleteFileWithPrefix_ok_pages delErr done hdone bucket
    (Except.ok (ks1 ++ k :: ks2) :: rest)]
  simp only [DeleteFileWithPrefix,
    deletePageContents_first_error delErr k e ks2 hk ks1 h1]
  exact ⟨trivial, (List.append_assoc _ _ _).symm⟩

/-- C3 witness: the delete of `"c"` fails on the second page; the run reports
that error and issues calls only for `"a"`, `"b"`, `"c"` — not for `"d"` nor
for the third page's `"x"`. -/
theorem DeleteFileWithPrefix_abort_on_delete_error_witness :
    (DeleteFileWithPrefix ["a", "b", "c", "d"]
        (fun key => if key == "c" then some "boom" else none)
        [Except.ok ["a"], Except.ok ["b", "c", "d"], Except.ok ["x"]]).err = some "boom" ∧
      (DeleteFileWithPrefix ["a", "b", "c", "d"]
          (fun key => if key == "c" then some "boom" else none)
          [Except.ok ["a"], Except.ok ["b", "c", "d"], Except.ok ["x"]]).deleteCalls =
        [["a"]].flatten ++ ["b"] ++ ["c"] :=
  DeleteFileWithPrefix_abort_on_delete_error ["a", "b", "c", "d"]
    (fun key => if key == "c" then some "boom" else none)
    [["a"]] ["b"] ["d"] "c" "boom" [Except.ok ["x"]] _
    (by decide) (by decide) (by decide) rfl

/-- C4: when a page listing fails — after `done` pages listed successfully
whose deletes all succeeded — `DeleteFileWithPrefix` returns the listing
error with no internal retry, the keys deleted during the earlier pages stay
deleted (no rollback), and the paginator responses after the failure are
never consumed: the run is identical whatever they would have been. -/
theorem DeleteFileWithPrefix_abort_on_list_error
    (bucket : List String) (delErr : String → Option String)
    (done : List (List String)) (e : String) (rest : List PageResult)
    (hdone : ∀ ks ∈ done, ∀ x ∈ ks, delErr x = none) :
    (DeleteFileWithPrefix bucket delErr
        (done.map Except.ok ++ Except.error e :: rest)).err = some e ∧
      (DeleteFileWithPrefix bucket delErr
          (done.map Except.ok ++ Except.error e :: rest)).deleteCalls = done.flatten ∧
      (DeleteFileWithPrefix bucket delErr
          (done.map Except.ok ++ Except.error e :: rest)).bucket =
        bucket.filter (fun x => decide (x ∉ done.flatten)) ∧
      DeleteFileWithPrefix bucket delErr (done.map Except.ok ++ Except.error e :: rest) =
        DeleteFileWithPrefix bucket delErr (done.map Except.ok ++ [Except.error e]) := by
  rw [DeleteFileWithPrefix_ok_pages delErr done hdone bucket (Except.error e :: rest),
    DeleteFileWithPrefix_ok_pages delErr done hdone bucket [Except.error e]]
  simp [DeleteFileWithPrefix]

/-- C4 witness: the listing of page 2 fails after page 1's `"logs/a"` was
deleted; the run reports the listing error, `"logs/a"` stays deleted, and the
page behind the failure is never consumed. -/
theorem DeleteFileWithPrefix_abort_on_list_error_witness :
    (DeleteFileWithPrefix ["logs/a", "logs/b"] (fun _ => none)
        ([["logs/a"]].map Except.ok ++ Except.error "net down" :: [Except.ok ["logs/b"]])).err =
      some "net down" ∧
      (DeleteFileWithPrefix ["logs/a", "logs/b"] (fun _ => none)
          ([["logs/a"]].map Except.ok ++
            Except.error "net down" :: [Except.ok ["logs/b"]])).deleteCalls =
        [["logs/a"]].flatten ∧
      (DeleteFileWithPrefix ["logs/a", "logs/b"] (fun _ => none)
          ([["logs/a"]].map Except.ok ++
            Except.error "net down" :: [Except.ok ["logs/b"]])).bucket =
        List.filter (fun x => decide (x ∉ [["logs/a"]].flatten)) ["logs/a", "logs/b"] ∧
      DeleteFileWithPrefix ["logs/a", "logs/b"] (fun _ => none)
          ([["logs/a"]].map Except.ok ++ Except.error "net down" :: [Except.ok ["logs/b"]]) =
        DeleteFileWithPrefix ["logs/a", "logs/b"] (fun _ => none)
          ([["logs/a"]].map Except.ok ++ [Except.error "net down"]) :=
  DeleteFileWithPrefix_abort_on_list_error ["logs/a", "logs/b"] (fun _ => none)
    [["logs/a"]] "net down" [Except.ok ["logs/b"]] (by decide)

/-- C5: with every page listed successfully and every delete succeeding, the
sequence of `DeleteObject` requests `DeleteFileWithPrefix` issues is exactly
the concatenation of the pages' key lists: keys in listing order within each
page, pages in paginator order.  (The embedding is strictly sequential by
construction: each call is a step of one recursive loop, completing before
the next is issued.) -/
theorem DeleteFileWithPrefix_delete_order
    (bucket : List String) (delErr : String → Option String)
    (pages : List (List String))
    (hdel : ∀ ks ∈ pages, ∀ x ∈ ks, delErr x = none) :
    (DeleteFileWithPrefix bucket delErr (pages.map Except.ok)).deleteCalls =
      pages.flatten := by
  have h := DeleteFileWithPrefix_ok_pages delErr pages hdel bucket []
  rw [List.append_nil] at h
  rw [h]
  simp [DeleteFileWithPrefix]

/-- C5 witness: two singleton pages are deleted as `"logs/a"` then
`"logs/b"`, the order the listing emitted them. -/
theorem DeleteFileWithPrefix_delete_order_witness :
    (DeleteFileWithPrefix ["logs/a", "logs/b"] (fun _ => none)
        ([["logs/a"], ["logs/b"]].map Except.ok)).deleteCalls =
      [["logs/a"], ["logs/b"]].flatten :=
  DeleteFileWithPrefix_delete_order ["logs/a", "logs/b"] (fun _ => none)
    [["logs/a"], ["logs/b"]] (by decide)

/-- C6: when no key of the bucket matches the filter `P`, an honest listing
returns only empty pages and `DeleteFileWithPrefix` terminates successfully,
issuing zero `DeleteObject` requests and leaving the bucket unchanged —
whatever outcomes the delete oracle would have produced. -/
theorem DeleteFileWithPrefix_no_match
    (bucket : List String) (P : String) (delErr : String → Option String)
    (pages : List (List String)) (r : WorkflowRun)
    (hmatch : ∀ k ∈ bucket, matchesFilter P k = false)
    (hlist : pages.flatten = bucket.filter fun k => matchesFilter P k)
    (hr : r = DeleteFileWithPrefix bucket delErr (pages.map Except.ok)) :
    r.err = none ∧ r.deleteCalls = [] ∧ r.bucket = bucket := by
  have hflat : pages.flatten = [] := by
    rw [hlist]
    exact List.filter_eq_nil_iff.mpr (by intro a ha; simp [hmatch a ha])
  have hdel : ∀ ks ∈ pages, ∀ x ∈ ks, delErr x = none := by
    intro ks hks x hx
    exact absurd (List.mem_flatten.mpr ⟨ks, hks, hx⟩) (by simp [hflat])
  have h := DeleteFileWithPrefix_ok_pages delErr pages hdel bucket []
  rw [List.append_nil, hflat, filter_not_mem_nil] at h
  simp only [DeleteFileWithPrefix, List.nil_append] at h
  rw [h] at hr
  subst hr
  exact ⟨rfl, rfl, rfl⟩

/-- C6 witness: filter `"logs/"` over a bucket holding only `images/c`; the
listing returns one empty page, the run succeeds with zero delete calls, and
the bucket is untouched — even though the delete oracle would fail any call. -/
theorem DeleteFileWithPrefix_no_match_witness :
    (DeleteFileWithPrefix ["images/c"] (fun _ => some "boom")
        ([[]].map Except.ok)).err = none ∧
      (DeleteFileWithPrefix ["images/c"] (fun _ => some "boom")
          ([[]].map Except.ok)).deleteCalls = [] ∧
      (DeleteFileWithPrefix ["images/c"] (fun _ => some "boom")
          ([[]].map Except.ok)).bucket = ["images/c"] :=
  DeleteFileWithPrefix_no_match ["images/c"] "logs/" (fun _ => some "boom")
    [[]] _ (by decide) (by decide) rfl

/-- C7: the empty filter string matches every key — prefix filtering is plain
literal matching and every key begins with the zero-length string — so with
an honest listing for filter `""` and successful deletes,
`DeleteFileWithPrefix` deletes every object of the bucket: afterwards the
bucket is empty and every original key received a delete call. -/
theorem DeleteFileWithPrefix_empty_filter_deletes_all
    (bucket : List String) (delErr : String → Option String)
    (pages : List (List String)) (r : WorkflowRun)
    (hlist : pages.flatten = bucket.filter fun k => matchesFilter "" k)
    (hdel : ∀ ks ∈ pages, ∀ x ∈ ks, delErr x = none)
    (hr : r = DeleteFileWithPrefix bucket delErr (pages.map Except.ok)) :
    (∀ k, matchesFilter "" k = true) ∧
      r.err = none ∧ r.bucket = [] ∧ r.deleteCalls = bucket := by
  have hall : ∀ k, matchesFilter "" k = true := by
    intro k
    show List.isPrefixOf "".toList k.toList = true
    rw [show "".toList = [] from by decide]
    exact List.isPrefixOf_nil_left
  have hfilter : (bucket.filter fun k => matchesFilter "" k) = bucket :=
    List.filter_eq_self.mpr fun a _ => hall a
  rw [hfilter] at hlist
  have h := DeleteFileWithPrefix_ok_pages delErr pages hdel bucket []
  rw [List.append_nil, hlist] at h
  simp only [DeleteFileWithPrefix, List.append_nil] at h
  rw [h] at hr
  subst hr
  refine ⟨hall, rfl, ?_, rfl⟩
  exact List.filter_eq_nil_iff.mpr (by intro a ha; simp [ha])

/-- C7 witness: deleting with the empty filter from a bucket holding `a` and
`b` empties the bucket and issues a delete call for each key. -/
theorem DeleteFileWithPrefix_empty_filter_deletes_all_witness :
    (∀ k, matchesFilter "" k = true) ∧
      (DeleteFileWithPrefix ["a", "b"] (fun _ => none)
          ([["a", "b"]].map Except.ok)).err = none ∧
      (DeleteFileWithPrefix ["a", "b"] (fun _ => none)
          ([["a", "b"]].map Except.ok)).bucket = [] ∧
      (DeleteFileWithPrefix ["a", "b"] (fun _ => none)
          ([["a", "b"]].map Except.ok)).deleteCalls = ["a", "b"] :=
  DeleteFileWithPrefix_empty_filter_deletes_all ["a", "b"] (fun _ => none)
    [["a", "b"]] _ (by decide) (by decide) rfl

/-- C2: `DeleteFile` reports success whenever the backend's error text
carries either recognized not-found signal — `"NotFound"` and `"NoSuchKey"`
are treated identically — reports success on backend success, and propagates
an error carrying neither signal unchanged to the caller. -/
theorem DeleteFile_not_found_swallowed_others_propagated (e : String) :
    DeleteFile none = none ∧
      (goContains e "NotFound" = true → DeleteFile (some e) = none) ∧
      (goContains e "NoSuchKey" = true → DeleteFile (some e) = none) ∧
      (goContains e "NotFound" = false → goContains e "NoSuchKey" = false →
        DeleteFile (some e) = some e) := by
  refine ⟨rfl, ?_, ?_, ?_⟩
  · intro h1
    simp [DeleteFile, h1]
  · intro h1
    simp [DeleteFile, h1]
  · intro h1 h2
    simp [DeleteFile, h1, h2]

/-- C2 witness: each not-found signal is swallowed into success, and an error
carrying neither signal is propagated unchanged. -/
theorem DeleteFile_not_found_swallowed_others_propagated_witness :
    (goContains "operation error S3: NotFound" "NotFound" = true ∧
      DeleteFile (some "operation error S3: NotFound") = none) ∧
      (goContains "api error NoSuchKey: the key does not exist" "NoSuchKey" = true ∧
        DeleteFile (some "api error NoSuchKey: the key does not exist") = none) ∧
      (goContains "AccessDenied" "NotFound" = false ∧
        goContains "AccessDenied" "NoSuchKey" = false ∧
        DeleteFile (some "AccessDenied") = some "AccessDenied") :=
  ⟨⟨by decide,
    (DeleteFile_not_found_swallowed_others_propagated "operation error S3: NotFound").2.1
      (by decide)⟩,
   ⟨by decide,
    (DeleteFile_not_found_swallowed_others_propagated
        "api error NoSuchKey: the key does not exist").2.2.1 (by decide)⟩,
   by decide, by decide,
   (DeleteFile_not_found_swallowed_others_propagated "AccessDenied").2.2.2
     (by decide) (by decide)⟩

/-! Accounting lemmas for the base64 decoder. -/

lemma b64Val_ne_pad (x : Char) (v : Nat) (hx : b64Val x = some v) : ¬ x = '=' := by
  intro hh
  rw [hh, show b64Val '=' = none from by decide] at hx
  exact Option.noConfusion hx

/-- An input accepted by the decoder has length a multiple of 4, and its
decoded byte count plus its padding-character count is three bytes per
four-character quantum. -/
lemma base64Decode_length :
    ∀ (l : List Char) (bs : List Nat), base64Decode l = some bs →
      l.length % 4 = 0 ∧ bs.length + l.count '=' = l.length / 4 * 3
  | [], bs, h => by
    simp only [base64Decode, Option.some.injEq] at h
    subst h
    simp
  | [a], bs, h => by simp [base64Decode] at h
  | [a, b], bs, h => by simp [base64Decode] at h
  | [a, b, c], bs, h => by simp [base64Decode] at h
  | a :: b :: c :: d :: rest, bs, h => by
    simp only [base64Decode] at h
    split at h
    case h_2 => exact absurd h (by simp)
    case h_1 va vb hva hvb =>
      have hpa := b64Val_ne_pad a va hva
      have hpb := b64Val_ne_pad b vb hvb
      split at h
      case isTrue hc =>
        subst hc
        split at h
        case isTrue hcond =>
          simp only [Bool.and_eq_true, decide_eq_true_eq, List.isEmpty_iff] at hcond
          obtain ⟨hd, hre⟩ := hcond
          subst hd
          subst hre
          obtain rfl : [va * 4 + vb / 16] = bs := Option.some.injEq _ _ ▸ h
          refine ⟨by simp, ?_⟩
          simp [List.count_cons, hpa, hpb]
        case isFalse => exact absurd h (by simp)
      case isFalse hc =>
        split at h
        case h_2 => exact absurd h (by simp)
        case h_1 vc hvc =>
          have hpc := b64Val_ne_pad c vc hvc
          split at h
          case isTrue hd =>
            subst hd
            split at h
            case isTrue hre =>
              have hre : rest = [] := List.isEmpty_iff.mp hre
              subst hre
              obtain rfl : [va * 4 + vb / 16, vb % 16 * 16 + vc / 4] = bs :=
                Option.some.injEq _ _ ▸ h
              refine ⟨by simp, ?_⟩
              simp [List.count_cons, hpa, hpb, hpc]
            case isFalse => exact absurd h (by simp)
          case isFalse hd =>
            split at h
            case h_2 => exact absurd h (by simp)
            case h_1 vd hvd =>
              have hpd := b64Val_ne_pad d vd hvd
              rw [Option.map_eq_some'] at h
              obtain ⟨bs', hrest, hbs⟩ := h
              obtain ⟨h4, hsum⟩ := base64Decode_length rest bs' hrest
              subst hbs
              constructor
              · simp only [List.length_cons]
                omega
              · have hcount : (a :: b :: c :: d :: rest).count '=' = rest.count '=' := by
                  simp [List.count_cons, hpa, hpb, hpc, hpd]
                rw [hcount]
                simp only [List.length_cons]
                omega

/-- C9 counterexample: the formula and direct decode-then-measure disagree
on accepted inputs. `"QQ=="` is valid standard base64 decoding to the single
byte 65, but the formula yields 3 (padding overestimation); `"QUJD\n\n"` is
also accepted — the decoder ignores new lines — decoding to 3 bytes with no
padding, but the formula counts the new-line characters in `rawLength` and
yields 4 (and its `mod 4` term fires even though the decoded payload is a
whole quantum). So the formula does not compute the exact decoded byte
length on every base64-encoded input. -/
theorem approxContentLength_not_exact :
    (DecodeString "QQ==" = some [65] ∧
      approxContentLength "QQ==" = 3 ∧
      approxContentLength "QQ==" ≠ (([65] : List Nat).length : Int)) ∧
      (DecodeString "QUJD\n\n" = some [65, 66, 67] ∧
        approxContentLength "QUJD\n\n" = 4 ∧
        approxContentLength "QUJD\n\n" ≠ (([65, 66, 67] : List Nat).length : Int)) := by
  exact ⟨⟨by decide, by decide, by decide⟩, ⟨by decide, by decide, by decide⟩⟩

/-- C9 amended: on every input free of new-line characters that standard
base64 decoding accepts, the content-length formula computes the decoded
byte length PLUS the number of `=` padding characters — exact precisely for
unpadded such inputs, and one or two bytes too large for padded ones. (On
accepted inputs containing `\r`/`\n` the formula also miscounts the skipped
characters, as the counterexample shows.) -/
theorem approxContentLength_eq_decoded_add_padding (s : String) (bs : List Nat)
    (hnl : ∀ c ∈ s.toList, ¬ c = '\r' ∧ ¬ c = '\n')
    (h : DecodeString s = some bs) :
    approxContentLength s = (bs.length : Int) + (s.toList.count '=' : Int) := by
  have hfe : (s.toList.filter fun c => !(c == '\r' || c == '\n')) = s.toList := by
    apply List.filter_eq_self.mpr
    intro a ha
    obtain ⟨h1, h2⟩ := hnl a ha
    simp [h1, h2]
  rw [DecodeString, hfe] at h
  obtain ⟨h4, hsum⟩ := base64Decode_length s.toList bs h
  have hn : s.length = s.toList.length := rfl
  simp only [approxContentLength]
  split <;> omega

/-- C9 amended witness: `"QQ=="` contains no new-line character, and on it
the formula value 3 is the decoded length 1 plus the 2 padding characters. -/
theorem approxContentLength_eq_decoded_add_padding_witness :
    (∀ c ∈ "QQ==".toList, ¬ c = '\r' ∧ ¬ c = '\n') ∧
      DecodeString "QQ==" = some [65] ∧
      approxContentLength "QQ==" =
        (([65] : List Nat).length : Int) + ("QQ==".toList.count '=' : Int) :=
  ⟨by decide, by decide,
    approxContentLength_eq_decoded_add_padding "QQ==" [65] (by decide) (by decide)⟩

/-- C10: when `RawData` is not valid standard base64, `SaveFile` reports an
error, issues no `PutObject` request, and consequently leaves any bucket's
contents unchanged. -/
theorem SaveFile_invalid_base64_no_write
    (bucketName : String) (req : UploaderReq) (uuidName : String)
    (putErr : Option String) (h : DecodeString req.RawData = none) :
    (SaveFile bucketName req uuidName putErr).putCalls = [] ∧
      (∃ msg, (SaveFile bucketName req uuidName putErr).ret = Except.error msg) ∧
      ∀ bucket : List String,
        applyPutCalls bucket (SaveFile bucketName req uuidName putErr).putCalls = bucket := by
  refine ⟨?_, ?_, ?_⟩ <;> simp [SaveFile, h, applyPutCalls]

/-- C10 witness: `"!!!"` is rejected by the decoder; the run issues no
`PutObject`, reports an error, and leaves any bucket unchanged. -/
theorem SaveFile_invalid_base64_no_write_witness :
    (SaveFile "example.com" ⟨"f.jpg", "images", "!!!"⟩ "uuid-1" none).putCalls = [] ∧
      (∃ msg, (SaveFile "example.com" ⟨"f.jpg", "images", "!!!"⟩ "uuid-1" none).ret =
        Except.error msg) ∧
      ∀ bucket : List String,
        applyPutCalls bucket
          (SaveFile "example.com" ⟨"f.jpg", "images", "!!!"⟩ "uuid-1" none).putCalls =
            bucket :=
  SaveFile_invalid_base64_no_write "example.com" ⟨"f.jpg", "images", "!!!"⟩ "uuid-1" none
    (by decide)

end BucketConnector
